import Mathlib

/-!
Verification development for the digit-recognition web app
(js/core/preprocessor.js, js/core/model.js, js/visual/networkRenderer.js,
js/app.js).  The JavaScript is shallowly embedded: pure numeric code is
translated to functions over `ℚ` (JS numbers behave as exact rationals on
every value these claims touch; where JS would divide by zero the embedding
exposes the zero divisor explicitly instead of producing `Infinity`/`NaN`),
index-based array loops become structural recursions or folds over
`List.range`, and the frame/timeout scheduler of the network renderer becomes
an explicit event-queue state machine.
-/

namespace Preprocessor

/-- A raw drawing canvas: width, height and the red channel (0–255) of each
pixel, mirroring `ctx.getImageData(0,0,W,H).data` where pixel `(x,y)` has its
red byte at index `(y*W + x)*4` (preprocessor.js line 22). -/
structure Canvas where
  W : Nat
  H : Nat
  red : Nat → Nat → Nat

/-- Accumulator of the bounding-box scan loop of `prepare`
(preprocessor.js lines 25–34): `x0, y0, x1, y1, found`. -/
structure Scan where
  x0 : Nat
  y0 : Nat
  x1 : Nat
  y1 : Nat
  found : Bool
deriving DecidableEq

/-- Loop body of the inner `for (x…)` loop (lines 28–32): a pixel is ink when
its red channel exceeds 20. -/
def inkStep (c : Canvas) (y : Nat) (s : Scan) (x : Nat) : Scan :=
  if c.red x y > 20 then
    { x0 := min s.x0 x, y0 := min s.y0 y, x1 := max s.x1 x, y1 := max s.y1 y,
      found := true }
  else s

/-- One iteration of the outer `for (y…)` loop (lines 26–34). -/
def rowScan (c : Canvas) (s : Scan) (y : Nat) : Scan :=
  (List.range c.W).foldl (inkStep c y) s

/-- The full bounding-box scan with initial accumulator
`x0 = W, y0 = H, x1 = 0, y1 = 0, found = false` (line 25). -/
def scanBox (c : Canvas) : Scan :=
  (List.range c.H).foldl (rowScan c) ⟨c.W, c.H, 0, 0, false⟩

/-- Crop and scale geometry computed by `prepare` (preprocessor.js
lines 39–48): padded source rectangle `sx, sy, sw, sh`, uniform scale `sc`,
destination size `dw, dh` and destination offset `dx, dy`. -/
structure Geom where
  sx : ℚ
  sy : ℚ
  sw : ℚ
  sh : ℚ
  sc : ℚ
  dw : ℚ
  dh : ℚ
  dx : ℚ
  dy : ℚ
deriving DecidableEq

/-- Lines 39–48 of preprocessor.js, given the result of the pixel scan.
`pad = max(bw,bh) * 0.22`, the crop is clamped to the source extents, and
`sc = min(20/sw, 20/sh)`.  In JS, when `sw` or `sh` is `0` the divisions
yield `Infinity` (and `dw = 0 * Infinity = NaN`); the embedding keeps the
zero divisor visible in the `sw`/`sh` fields. -/
def geomOf (c : Canvas) (s : Scan) : Geom :=
  let bw : ℚ := (s.x1 : ℚ) - (s.x0 : ℚ)
  let bh : ℚ := (s.y1 : ℚ) - (s.y0 : ℚ)
  let pad : ℚ := max bw bh * (22/100)
  let sx : ℚ := max 0 ((s.x0 : ℚ) - pad)
  let sy : ℚ := max 0 ((s.y0 : ℚ) - pad)
  let sw : ℚ := min ((c.W : ℚ) - sx) (bw + pad * 2)
  let sh : ℚ := min ((c.H : ℚ) - sy) (bh + pad * 2)
  let sc : ℚ := min (20 / sw) (20 / sh)
  let dw : ℚ := sw * sc
  let dh : ℚ := sh * sc
  { sx := sx, sy := sy, sw := sw, sh := sh, sc := sc, dw := dw, dh := dh,
    dx := (28 - dw) / 2, dy := (28 - dh) / 2 }

/-- The geometry of `prepare`: `none` when no ink pixel was found
(line 37 returns the blank canvas), otherwise the crop computed at
lines 39–48. -/
def prepareGeom (c : Canvas) : Option Geom :=
  if (scanBox c).found then some (geomOf c (scanBox c)) else none

/-- Result of `prepare`: either the all-black 28×28 canvas (`_blank28`, no
ink found, line 37) or the blank canvas with the source crop drawn at the
destination rectangle of `g` (line 50; `drawImage` paints only inside that
destination rectangle, the rest of the 28×28 image stays black). -/
inductive Image28 where
  | black : Image28
  | drawn : Geom → Image28
deriving DecidableEq

/-- `prepare` (preprocessor.js lines 19–52), up to the actual resampling:
which pixels can be non-black is fully described by the crop geometry. -/
def prepare (c : Canvas) : Image28 :=
  match prepareGeom c with
  | none => Image28.black
  | some g => Image28.drawn g

/-- `isEmpty` (preprocessor.js lines 55–59): scans `d[i]` for `i += 4`,
i.e. the red channel of every pixel in row-major order, and returns false as
soon as one exceeds 20. -/
def isEmpty (c : Canvas) : Bool :=
  (List.range (c.W * c.H)).all
    (fun p => decide (c.red (p % c.W) (p / c.W) ≤ 20))

end Preprocessor

namespace MnistModel

/-- A raw layer activation tensor as handed to `_compactActivation`
(model.js lines 223–244): the shape reported by tf.js and the flat
`dataSync()` buffer, row-major with index `h*W*F + w*F + f` for a
`[batch, H, W, F]` tensor. -/
structure Tensor where
  shape : List Nat
  data : List ℚ

/-- The nested accumulation loop of `_compactActivation` (model.js
lines 232–236): sum of channel `f` over all spatial positions. -/
def channelSum (t : Tensor) (H W F f : Nat) : ℚ :=
  (List.range H).foldl
    (fun sum h =>
      (List.range W).foldl
        (fun sum w => sum + t.data.getD (h * W * F + w * F + f) 0) sum)
    0

/-- The `summary` vector of `_compactActivation` (model.js lines 227–240):
for a rank-4 shape `[, H, W, F]` the spatial mean of each of the first
`min(F, 16)` channels, otherwise `data.slice(0, 16)`. -/
def summaryOf (t : Tensor) : List ℚ :=
  if t.shape.length = 4 then
    let H := t.shape.getD 1 0
    let W := t.shape.getD 2 0
    let F := t.shape.getD 3 0
    (List.range (min F 16)).map
      (fun f => channelSum t H W F f / ((H : ℚ) * (W : ℚ)))
  else t.data.take 16

/-- `Math.max(...summary, 0.0001)` (model.js line 242). -/
def maxFloor (l : List ℚ) : ℚ := l.foldl max (1/10000)

/-- `_compactActivation` (model.js lines 223–244): the summary vector
rescaled by its floored maximum. -/
def compactActivation (t : Tensor) : List ℚ :=
  (summaryOf t).map (fun v => v / maxFloor (summaryOf t))

/-- Spec-side formulation of the spatial mean of channel `f`, stated with a
`Finset` double sum (to be compared with the source's `foldl` loops). -/
def channelMeanSpec (t : Tensor) (H W F f : Nat) : ℚ :=
  (∑ h ∈ Finset.range H, ∑ w ∈ Finset.range W,
      t.data.getD (h * W * F + w * F + f) 0) / ((H : ℚ) * (W : ℚ))

end MnistModel

namespace App

/-- `pad16` (js/app.js lines 210): `Array.from({length:16}, (_, i) => arr[i] ?? 0)`. -/
def pad16 (arr : List ℚ) : List ℚ :=
  (List.range 16).map (fun i => arr.getD i 0)

end App

/-- The full per-layer summarization as wired in js/app.js lines 205–217:
`_compactActivation` output padded/trimmed to exactly 16 entries. -/
def summarize (t : MnistModel.Tensor) : List ℚ :=
  App.pad16 (MnistModel.compactActivation t)

namespace NetworkRenderer

/-- Constants of networkRenderer.js lines 16–25. -/
def H1 : Nat := 16
def H2 : Nat := 16
def OUT : Nat := 10
def PIX_COLS : Nat := 14
def PIX_ROWS : Nat := 14
def ANIM_DUR : ℚ := 280
def LAYER_GAP : ℚ := 70

/-- A glass-sphere node (networkRenderer.js line 82):
`{ x, y, act, target, idx }`. -/
structure Node where
  x : ℚ
  y : ℚ
  act : ℚ
  target : ℚ
  idx : Nat
deriving DecidableEq

/-- Default node used only as the `getD` fallback in statements. -/
def dNode : Node := ⟨0, 0, 0, 0, 0⟩

/-- An input-preview grid cell (networkRenderer.js lines 64–70). -/
structure Pixel where
  x : ℚ
  y : ℚ
  w : ℚ
  h : ℚ
  val : ℚ
deriving DecidableEq

/-- Default pixel used only as the `getD` fallback in statements. -/
def dPix : Pixel := ⟨0, 0, 0, 0, 0⟩

/-- `P.clientWidth || 260` (line 46): JS `||` replaces a zero width. -/
def effW (cw : ℚ) : ℚ := if cw = 0 then 260 else cw

/-- `P.clientHeight || 500` (line 47). -/
def effH (ch : ℚ) : ℚ := if ch = 0 then 500 else ch

/-- `cx = (i) => W * (i + 1) / 5` (line 51). -/
def colX (W : ℚ) (i : Nat) : ℚ := W * ((i : ℚ) + 1) / 5

/-- `cellW = Math.min((W/5)*0.85/PIX_COLS, H*0.75/PIX_ROWS, 9)` (line 54). -/
def cellW (W H : ℚ) : ℚ :=
  min (min ((W / 5) * (85/100) / (PIX_COLS : ℚ)) (H * (75/100) / (PIX_ROWS : ℚ))) 9

/-- The 14×14 pixel grid built at lines 61–72: `cellH = cellW`,
`gx0 = cx(0) - gridW/2`, `gy0 = H/2 - gridH/2`, cell `(r,c)` centred at
`(gx0 + c*cellW + cellW/2, gy0 + r*cellH + cellH/2)`, `val = 0`. -/
def layoutPixels (W H : ℚ) : List Pixel :=
  let cw := cellW W H
  let gridW := cw * (PIX_COLS : ℚ)
  let gridH := cw * (PIX_ROWS : ℚ)
  let gx0 := colX W 0 - gridW / 2
  let gy0 := H / 2 - gridH / 2
  (List.range PIX_ROWS).flatMap (fun (r : Nat) =>
    (List.range PIX_COLS).map (fun (c : Nat) =>
      { x := gx0 + (c : ℚ) * cw + cw / 2, y := gy0 + (r : ℚ) * cw + cw / 2,
        w := cw - 1, h := cw - 1, val := 0 }))

/-- `_makeNodes` (networkRenderer.js lines 79–84): `gap = H/(count+1)`,
node `i` at `y = gap * (i+1)` with `act = 0`, `target = 0`. -/
def makeNodes (count : Nat) (lx : ℚ) (H : ℚ) : List Node :=
  (List.range count).map
    (fun (i : Nat) =>
      { x := lx, y := (H / ((count : ℚ) + 1)) * ((i : ℚ) + 1),
        act := 0, target := 0, idx := i })

/-- The node/pixel collections produced by `_layout` (lines 44–77). -/
structure LayoutOut where
  pixels : List Pixel
  h1Nodes : List Node
  h2Nodes : List Node
  outNodes : List Node
deriving DecidableEq

/-- `_layout` (networkRenderer.js lines 44–77). -/
def layout (cw ch : ℚ) : LayoutOut :=
  let W := effW cw
  let H := effH ch
  { pixels := layoutPixels W H,
    h1Nodes := makeNodes H1 (colX W 1) H,
    h2Nodes := makeNodes H2 (colX W 2) H,
    outNodes := makeNodes OUT (colX W 3) H }

/-- Per-`animate()`-call closure state: the three target arrays (after the
`|| []` defaulting of lines 236–238), the shared mutable layer counter `li`
(line 241) and the identity of the `onDone` callback. -/
structure RunData where
  t1 : List ℚ
  t2 : List ℚ
  t3 : List ℚ
  li : Nat
  onDone : Nat
deriving DecidableEq

/-- A pending host callback: a `requestAnimationFrame` callback
(its handle, the run it belongs to, the layer index and `start` timestamp its
`step` closure captured) or a `setTimeout(nextLayer, LAYER_GAP)` callback
(its due time and run). -/
inductive Task where
  | raf : Nat → Nat → Nat → ℚ → Task
  | tmo : ℚ → Nat → Task
deriving DecidableEq

/-- The renderer's mutable state: the node arrays and pixel grid, the single
remembered frame handle `_raf` (line 28), the queue of pending host
callbacks, the closure state of every `animate` run ever started, a count of
`_draw()` calls and the sequence of completion callbacks that have fired. -/
structure RState where
  h1Nodes : List Node
  h2Nodes : List Node
  outNodes : List Node
  pixels : List Pixel
  raf : Option Nat
  nextHandle : Nat
  tasks : List Task
  runs : List RunData
  drawCount : Nat
  doneFired : List Nat
deriving DecidableEq

/-- State after `init`/`_layout`: freshly laid-out nodes, no pending
callbacks, no runs. -/
def initRS (cw ch : ℚ) : RState :=
  let L := layout cw ch
  { h1Nodes := L.h1Nodes, h2Nodes := L.h2Nodes, outNodes := L.outNodes,
    pixels := L.pixels, raf := none, nextHandle := 1, tasks := [],
    runs := [], drawCount := 0, doneFired := [] }

/-- `layers[l].nodes` (lines 235–239): 0 ↦ `_h1Nodes`, 1 ↦ `_h2Nodes`,
otherwise `_outNodes`. -/
def layerNodes (s : RState) : Nat → List Node
  | 0 => s.h1Nodes
  | 1 => s.h2Nodes
  | _ => s.outNodes

/-- Write back one layer's node array. -/
def setLayer (s : RState) (l : Nat) (ns : List Node) : RState :=
  match l with
  | 0 => { s with h1Nodes := ns }
  | 1 => { s with h2Nodes := ns }
  | _ => { s with outNodes := ns }

/-- `layers[l].targets` of a run (lines 235–239). -/
def runTargets (r : RunData) : Nat → List ℚ
  | 0 => r.t1
  | 1 => r.t2
  | _ => r.t3

/-- `nodes.forEach((n, i) => { n.target = Math.min(targets[i] ?? 0, 1) })`
(line 245), index-threaded. -/
def setTargetsAux (targets : List ℚ) (i : Nat) : List Node → List Node
  | [] => []
  | n :: ns =>
      { n with target := min (targets.getD i 0) 1 } :: setTargetsAux targets (i + 1) ns

def setTargets (targets : List ℚ) (nodes : List Node) : List Node :=
  setTargetsAux targets 0 nodes

/-- `if (_raf) cancelAnimationFrame(_raf)` (lines 231, 261): drop the pending
frame callback with the remembered handle, if it is still pending; pending
timeouts are untouched. -/
def cancelRaf (s : RState) : RState :=
  match s.raf with
  | none => s
  | some h =>
      { s with tasks := s.tasks.filter (fun t =>
          match t with
          | Task.raf h' _ _ _ => h' != h
          | Task.tmo _ _ => true) }

/-- `_raf = requestAnimationFrame(step)` (lines 252, 255): enqueue a fresh
frame callback and remember its handle. -/
def requestRaf (run layer : Nat) (start : ℚ) (s : RState) : RState :=
  { s with tasks := s.tasks ++ [Task.raf s.nextHandle run layer start],
           raf := some s.nextHandle,
           nextHandle := s.nextHandle + 1 }

/-- `li++` inside `step` (line 253): the run's shared layer counter. -/
def bumpLiAux (run : Nat) : Nat → List RunData → List RunData
  | _, [] => []
  | i, r :: rs =>
      (if i = run then { r with li := r.li + 1 } else r) :: bumpLiAux run (i + 1) rs

def bumpLi (runs : List RunData) (run : Nat) : List RunData :=
  bumpLiAux run 0 runs

/-- `nextLayer` (lines 242–256): when the run's `li` has passed the last
layer, fire `onDone` (line 243); otherwise assign the layer's clamped
targets, take `start = performance.now()` and schedule the first `step`. -/
def nextLayer (run : Nat) (now : ℚ) (s : RState) : RState :=
  match s.runs.get? run with
  | none => s
  | some r =>
      if 3 ≤ r.li then { s with doneFired := s.doneFired ++ [r.onDone] }
      else
        let s1 := setLayer s r.li (setTargets (runTargets r r.li) (layerNodes s r.li))
        requestRaf run r.li now s1

/-- One firing of `step` (lines 247–254) for a frame callback that captured
`(run, layer, start)`, executed at timestamp `now`:
`t = min((now-start)/ANIM_DUR, 1)`, `ease = 1-(1-t)^3`, every node of the
captured layer moves a fraction `ease` of its remaining distance, `_draw()`
runs, and either another frame is requested (`t < 1`) or `li++` and the
inter-layer timeout are scheduled. -/
def stepRun (run layer : Nat) (start now : ℚ) (s : RState) : RState :=
  let t := min ((now - start) / ANIM_DUR) 1
  let ease := 1 - (1 - t) ^ 3
  let s1 := setLayer s layer
      ((layerNodes s layer).map
        (fun n => { n with act := n.act + (n.target - n.act) * ease }))
  let s2 := { s1 with drawCount := s1.drawCount + 1 }
  if t < 1 then requestRaf run layer start s2
  else { s2 with runs := bumpLi s2.runs run,
                 tasks := s2.tasks ++ [Task.tmo (now + LAYER_GAP) run] }

/-- `p.val = inputPixels[i] ?? 0` (line 233), index-threaded. -/
def setValsAux (ip : List ℚ) (i : Nat) : List Pixel → List Pixel
  | [] => []
  | p :: ps => { p with val := ip.getD i 0 } :: setValsAux ip (i + 1) ps

/-- `animate` (networkRenderer.js lines 230–258): cancel the remembered
frame handle, apply the input preview instantly when the array is present
(`if (inputPixels) …`, line 233 — an absent array leaves the previous
values), default absent target arrays to `[]` (lines 236–238), register the
run's closure state and start its first layer synchronously.  Every input is
handled totally: no call ever raises an error. -/
def animate (inputPixels h1Acts h2Acts outActs : Option (List ℚ))
    (onDone : Nat) (now : ℚ) (s : RState) : RState :=
  let s1 := cancelRaf s
  let s2 := match inputPixels with
    | none => s1
    | some ip => { s1 with pixels := setValsAux ip 0 s1.pixels }
  let run := s2.runs.length
  let r : RunData :=
    { t1 := h1Acts.getD [], t2 := h2Acts.getD [], t3 := outActs.getD [],
      li := 0, onDone := onDone }
  nextLayer run now { s2 with runs := s2.runs ++ [r] }

/-- `n.act = 0; n.target = 0` (line 262). -/
def zeroNode (n : Node) : Node := { n with act := 0, target := 0 }

/-- `reset` (networkRenderer.js lines 260–265): cancel the remembered frame
handle, zero every node's activation and target and every preview value, and
repaint once. -/
def reset (s : RState) : RState :=
  let s1 := cancelRaf s
  { s1 with h1Nodes := s1.h1Nodes.map zeroNode,
            h2Nodes := s1.h2Nodes.map zeroNode,
            outNodes := s1.outNodes.map zeroNode,
            pixels := s1.pixels.map (fun p => { p with val := 0 }),
            drawCount := s1.drawCount + 1 }

/-- The host delivers one animation frame at time `now`: every frame
callback that was pending when the frame began runs, in registration order;
callbacks they register run no earlier than the next frame. -/
def fireFrame (now : ℚ) (s : RState) : RState :=
  let pend := s.tasks.filterMap (fun t =>
    match t with
    | Task.raf _ run layer start => some (run, layer, start)
    | Task.tmo _ _ => none)
  let s1 := { s with tasks := s.tasks.filter (fun t =>
    match t with
    | Task.raf _ _ _ _ => false
    | Task.tmo _ _ => true) }
  pend.foldl (fun s2 p => stepRun p.1 p.2.1 p.2.2 now s2) s1

/-- The host runs every timeout due by time `now`, in registration order. -/
def fireTimeouts (now : ℚ) (s : RState) : RState :=
  let due := s.tasks.filterMap (fun t =>
    match t with
    | Task.tmo fa run => if fa ≤ now then some run else none
    | Task.raf _ _ _ _ => none)
  let s1 := { s with tasks := s.tasks.filter (fun t =>
    match t with
    | Task.tmo fa _ => decide (now < fa)
    | Task.raf _ _ _ _ => true) }
  due.foldl (fun s2 run => nextLayer run now s2) s1

/-- External events driving the renderer. -/
inductive Ev where
  | anim : Option (List ℚ) → Option (List ℚ) → Option (List ℚ) →
      Option (List ℚ) → Nat → ℚ → Ev
  | frame : ℚ → Ev
  | timeoutsAt : ℚ → Ev
  | rst : Ev

def applyEv (s : RState) : Ev → RState
  | Ev.anim ip a b c onDone now => animate ip a b c onDone now s
  | Ev.frame now => fireFrame now s
  | Ev.timeoutsAt now => fireTimeouts now s
  | Ev.rst => reset s

def runEvs (evs : List Ev) (s : RState) : RState := evs.foldl applyEv s

/-- Runs that have a layer animation in flight: a pending frame callback. -/
def inFlightRuns (s : RState) : List Nat :=
  s.tasks.filterMap (fun t =>
    match t with
    | Task.raf _ run _ _ => some run
    | Task.tmo _ _ => none)

/-- All node activations, targets and preview values are exactly zero. -/
def allZero (s : RState) : Bool :=
  (s.h1Nodes ++ s.h2Nodes ++ s.outNodes).all
    (fun n => decide (n.act = 0) && decide (n.target = 0)) &&
  s.pixels.all (fun p => decide (p.val = 0))

end NetworkRenderer

namespace MnistModel

/-- The training-related module state of model.js (lines 33–36) together
with observable effect counters: `inFlight` counts admitted `train` bodies
that have not yet completed, `loads` counts `_loadData` calls and `builds`
counts `_buildModel` calls. -/
structure TrainState where
  training : Bool
  trained : Bool
  inFlight : Nat
  loads : Nat
  builds : Nat
deriving DecidableEq

/-- Initial module state: `_model = null, _trained = false, _training = false`. -/
def initTS : TrainState := ⟨false, false, 0, 0, 0⟩

/-- The synchronous prefix of `train` (model.js lines 48–54): the guard
`if (_training) return` runs atomically with `_training = true` (no `await`
between them), and an admitted run loads the data and builds the model. -/
def trainStart (s : TrainState) : TrainState :=
  if s.training then s
  else { s with training := true, inFlight := s.inFlight + 1,
                loads := s.loads + 1, builds := s.builds + 1 }

/-- Successful completion of an admitted run (model.js lines 87–89):
`_trained = true; _training = false`.  A completion can only come from a run
that is actually in flight. -/
def trainDone (s : TrainState) : TrainState :=
  if s.inFlight = 0 then s
  else { s with trained := true, training := false, inFlight := s.inFlight - 1 }

/-- The catch path of an admitted run (model.js lines 91–93):
`_training = false`. -/
def trainFail (s : TrainState) : TrainState :=
  if s.inFlight = 0 then s
  else { s with training := false, inFlight := s.inFlight - 1 }

/-- Interleaved external events: `train()` calls and run completions. -/
inductive TrainEv where
  | start : TrainEv
  | finish : TrainEv
  | fail : TrainEv

def applyTrainEv (s : TrainState) : TrainEv → TrainState
  | TrainEv.start => trainStart s
  | TrainEv.finish => trainDone s
  | TrainEv.fail => trainFail s

def runTrain (evs : List TrainEv) : TrainState :=
  evs.foldl applyTrainEv initTS

end MnistModel

/-! Concrete scenarios used by the verification theorems below. -/

namespace NetworkRenderer

/-- Renderer state right after `init` on a 260×500 panel. -/
def rsStart : RState := initRS 260 500

/-- Two `animate()` calls in rapid succession: the first at `t = 0` (its
layer-0 animation completes at `t = 280` and schedules the inter-layer
timeout for `t = 350`), the second at `t = 300`, i.e. during the first run's
inter-layer pause. -/
def traceOverlap : List Ev :=
  [ Ev.anim none (some [1]) none none 100 0,
    Ev.frame 280,
    Ev.anim none (some [1/2]) none none 200 300,
    Ev.timeoutsAt 350 ]

/-- `traceOverlap` continued until both interleaved runs have walked through
all three layers. -/
def traceDone : List Ev := traceOverlap ++
  [ Ev.frame 630, Ev.timeoutsAt 700, Ev.frame 980, Ev.timeoutsAt 1050 ]

/-- `animate()` at `t = 0` with second-layer targets `[1]`, layer 0 finishing
at `t = 280` (timeout scheduled for `t = 350`), then `reset()` at `t ≈ 300`,
during the inter-layer pause. -/
def traceReset : List Ev :=
  [ Ev.anim none none (some [1]) none 300 0, Ev.frame 280, Ev.rst ]

/-- `traceReset` continued: the host fires the pending timeout and the frame
callback it schedules. -/
def traceResetAfter : List Ev :=
  traceReset ++ [ Ev.timeoutsAt 350, Ev.frame 630 ]

/-- State after an `animate` call whose input preview sets every cell
to 1/2. -/
def rsHalfPreview : RState :=
  animate (some (List.replicate 196 (1/2))) none none none 0 0 rsStart

end NetworkRenderer

namespace Preprocessor

/-- A 10×10 canvas with a single ink pixel at (5,5): the degenerate
single-pixel dot. -/
def dotCanvas : Canvas :=
  ⟨10, 10, fun x y => if x = 5 ∧ y = 5 then 255 else 0⟩

/-- A 10×10 canvas with a 2×2 ink block at columns/rows 2–3. -/
def inkCanvas : Canvas :=
  ⟨10, 10, fun x y => if 2 ≤ x ∧ x ≤ 3 ∧ 2 ≤ y ∧ y ≤ 3 then 255 else 0⟩

/-- A 3×3 canvas with nothing drawn. -/
def blankCanvas : Canvas := ⟨3, 3, fun _ _ => 0⟩

end Preprocessor

namespace MnistModel

/-- A flat tensor whose dominant entry 1/20000 lies below the 0.0001
rescaling floor. -/
def tinyDominant : Tensor := ⟨[1, 3], [1/20000, 0, 0]⟩

/-- A flat tensor with a dominant entry above the floor. -/
def bigDominant : Tensor := ⟨[1, 2], [1/2, 1/4]⟩

/-- A rank-4 all-zero tensor (shape [1,2,2,1]). -/
def zeroTensor4 : Tensor := ⟨[1, 2, 2, 1], [0, 0, 0, 0]⟩

/-- A rank-4 tensor with 1×1 spatial extent and two channels. -/
def t4ex : Tensor := ⟨[1, 1, 1, 2], [3, 1]⟩

/-- A flat two-entry tensor. -/
def tFlatEx : Tensor := ⟨[1, 2], [5, 7]⟩

end MnistModel

/-! Theorems.  Batteries marks the `Rat` arithmetic operations
`@[irreducible]`; making them semireducible again lets `decide` evaluate the
embedded functions on concrete inputs (the kernel unfolds them either way). -/

attribute [local semireducible] Rat.add Rat.mul Rat.sub Rat.inv

/-! General list helpers. -/

lemma getD_map_range {α : Type} (g : Nat → α) (d : α) {n i : Nat} (h : i < n) :
    ((List.range n).map g).getD i d = g i := by
  simp [List.getD_eq_getElem?_getD, List.getElem?_map, List.getElem?_range h]

lemma getD_eq_getElem {α : Type} (l : List α) (d : α) {i : Nat} (h : i < l.length) :
    l.getD i d = l[i] := by
  simp [List.getD_eq_getElem?_getD, List.getElem?_eq_getElem h]

lemma getD_map_div (l : List ℚ) (m : ℚ) {i : Nat} (h : i < l.length) :
    (l.map (fun v => v / m)).getD i 0 = l.getD i 0 / m := by
  rw [getD_eq_getElem _ _ (by simpa using h), getD_eq_getElem _ _ h]
  simp

lemma foldl_add_eq (g : Nat → ℚ) : ∀ (n : Nat) (a : ℚ),
    (List.range n).foldl (fun s w => s + g w) a = a + ∑ w ∈ Finset.range n, g w
  | 0, a => by simp
  | n + 1, a => by
      rw [List.range_succ, List.foldl_append, foldl_add_eq g n a,
        Finset.sum_range_succ]
      simp [add_assoc]

lemma le_foldl_max : ∀ (l : List ℚ) (a : ℚ), a ≤ l.foldl max a
  | [], a => le_refl a
  | x :: xs, a => le_trans (le_max_left a x) (le_foldl_max xs (max a x))

lemma mem_le_foldl_max : ∀ (l : List ℚ) (a x : ℚ), x ∈ l → x ≤ l.foldl max a
  | [], _, x, hx => absurd hx (List.not_mem_nil x)
  | y :: ys, a, x, hx => by
      rcases List.mem_cons.mp hx with h | h
      · subst h; exact le_trans (le_max_right a x) (le_foldl_max ys (max a x))
      · exact mem_le_foldl_max ys (max a y) x h

lemma foldl_max_le : ∀ (l : List ℚ) (a b : ℚ), a ≤ b → (∀ x ∈ l, x ≤ b) →
    l.foldl max a ≤ b
  | [], _, _, ha, _ => ha
  | x :: xs, a, b, ha, hx => by
      refine foldl_max_le xs (max a x) b (max_le ha (hx x (List.mem_cons_self x xs))) ?_
      exact fun z hz => hx z (List.mem_cons_of_mem x hz)

lemma maxFloor_eq {l : List ℚ} {m : ℚ} (hm : m ∈ l) (hub : ∀ x ∈ l, x ≤ m)
    (hfloor : (1 : ℚ)/10000 ≤ m) : MnistModel.maxFloor l = m :=
  le_antisymm (foldl_max_le l _ m hfloor hub) (mem_le_foldl_max l _ m hm)

/-! Relating the bounding-box scan loops to bounded quantifiers. -/

lemma foldl_inkStep_found (c : Preprocessor.Canvas) (y : Nat) :
    ∀ (xs : List Nat) (s : Preprocessor.Scan),
      ((xs.foldl (Preprocessor.inkStep c y) s).found = true) ↔
        (s.found = true ∨ ∃ x ∈ xs, 20 < c.red x y)
  | [], s => by simp
  | a :: xs, s => by
      rw [List.foldl_cons, foldl_inkStep_found c y xs]
      by_cases h : c.red a y > 20
      · simp [Preprocessor.inkStep, h]
      · simp [Preprocessor.inkStep, h]

lemma foldl_rowScan_found (c : Preprocessor.Canvas) :
    ∀ (ys : List Nat) (s : Preprocessor.Scan),
      ((ys.foldl (Preprocessor.rowScan c) s).found = true) ↔
        (s.found = true ∨ ∃ y ∈ ys, ∃ x ∈ List.range c.W, 20 < c.red x y)
  | [], s => by simp
  | a :: ys, s => by
      rw [List.foldl_cons, foldl_rowScan_found c ys]
      simp only [Preprocessor.rowScan, foldl_inkStep_found c a]
      rw [List.exists_mem_cons_iff, or_assoc]

lemma scanBox_found_iff (c : Preprocessor.Canvas) :
    (Preprocessor.scanBox c).found = true ↔
      ∃ y < c.H, ∃ x < c.W, 20 < c.red x y := by
  unfold Preprocessor.scanBox
  rw [foldl_rowScan_found]
  simp [List.mem_range]

lemma canvas_isEmpty_iff (c : Preprocessor.Canvas) :
    Preprocessor.isEmpty c = true ↔ ∀ y < c.H, ∀ x < c.W, c.red x y ≤ 20 := by
  unfold Preprocessor.isEmpty
  rw [List.all_eq_true]
  constructor
  · intro hall y hy x hx
    have hW : 0 < c.W := lt_of_le_of_lt (Nat.zero_le x) hx
    have hp : x + y * c.W < c.W * c.H := by
      calc x + y * c.W < c.W + y * c.W := by omega
        _ = (y + 1) * c.W := by ring
        _ ≤ c.H * c.W := Nat.mul_le_mul_right _ (by omega)
        _ = c.W * c.H := Nat.mul_comm _ _
    have h := hall (x + y * c.W) (List.mem_range.mpr hp)
    have hmod : (x + y * c.W) % c.W = x := by
      rw [Nat.add_mul_mod_self_right, Nat.mod_eq_of_lt hx]
    have hdiv : (x + y * c.W) / c.W = y := by
      rw [Nat.add_mul_div_right _ _ hW, Nat.div_eq_of_lt hx]
      omega
    rw [hmod, hdiv] at h
    exact of_decide_eq_true h
  · intro hall p hp
    have hp' := List.mem_range.mp hp
    have hW : 0 < c.W := by
      rcases Nat.eq_zero_or_pos c.W with h0 | h
      · rw [h0] at hp'; omega
      · exact h
    refine decide_eq_true ?_
    exact hall (p / c.W)
      ((Nat.div_lt_iff_lt_mul hW).mpr (by rw [Nat.mul_comm]; exact hp'))
      (p % c.W) (Nat.mod_lt _ hW)

/-- Claim C5: for every raw canvas in which no pixel's red channel exceeds
20, `prepare` returns the all-black 28×28 image and `isEmpty` returns true;
both functions test the red channel against the same threshold constant 20
with the same strict comparison, so `isEmpty c = true` exactly when the
pixel scan of `prepare` finds no ink pixel. -/
theorem isEmpty_matches_prepare (c : Preprocessor.Canvas) :
    (Preprocessor.isEmpty c = true ↔ (Preprocessor.scanBox c).found = false) ∧
    ((∀ y < c.H, ∀ x < c.W, c.red x y ≤ 20) →
      Preprocessor.prepare c = Preprocessor.Image28.black ∧
      Preprocessor.isEmpty c = true) := by
  have hfiff : (Preprocessor.scanBox c).found = false ↔
      ∀ y < c.H, ∀ x < c.W, c.red x y ≤ 20 := by
    rw [← Bool.not_eq_true, scanBox_found_iff]
    push_neg
    rfl
  constructor
  · rw [canvas_isEmpty_iff, hfiff]
  · intro h
    refine ⟨?_, (canvas_isEmpty_iff c).mpr h⟩
    have hfound : (Preprocessor.scanBox c).found = false := hfiff.mpr h
    simp [Preprocessor.prepare, Preprocessor.prepareGeom, hfound]

/-- Witness for C5 at a concrete blank canvas. -/
theorem isEmpty_matches_prepare_witness :
    Preprocessor.prepare Preprocessor.blankCanvas = Preprocessor.Image28.black ∧
    Preprocessor.isEmpty Preprocessor.blankCanvas = true :=
  (isEmpty_matches_prepare Preprocessor.blankCanvas).2 (by decide)

/-- Claim C2 (failing case): on the single-pixel dot canvas the bounding box
is degenerate in both dimensions and no positive floor is applied: the crop
width and height are exactly 0, so the scale computation
`min(20/sw, 20/sh)` divides by zero (in JS: `Infinity`, making
`dw = 0 * Infinity = NaN`, and `drawImage` with NaN geometry draws
nothing). -/
theorem single_dot_zero_area_crop :
    Preprocessor.prepareGeom Preprocessor.dotCanvas =
      some (Preprocessor.geomOf Preprocessor.dotCanvas
        (Preprocessor.scanBox Preprocessor.dotCanvas)) ∧
    (Preprocessor.geomOf Preprocessor.dotCanvas
      (Preprocessor.scanBox Preprocessor.dotCanvas)).sw = 0 ∧
    (Preprocessor.geomOf Preprocessor.dotCanvas
      (Preprocessor.scanBox Preprocessor.dotCanvas)).sh = 0 := by
  decide

/-- Claim C6: whenever `prepare` finds ink and the padded crop is
non-degenerate, the uniform scale `min(20/sw, 20/sh)` keeps both destination
dimensions at most 20, preserves the aspect ratio (`dw·sh = dh·sw`), and the
centred offsets `(28-dw)/2, (28-dh)/2` place the whole destination
rectangle — the only region `drawImage` can paint — inside the centred
20×20 square `[4,24]×[4,24]` of the 28×28 image. -/
theorem prepare_fits_centered (c : Preprocessor.Canvas) (g : Preprocessor.Geom)
    (hg : Preprocessor.prepareGeom c = some g)
    (hsw : 0 < g.sw) (hsh : 0 < g.sh) :
    g.sc = min (20 / g.sw) (20 / g.sh) ∧
    g.dw = g.sw * g.sc ∧ g.dh = g.sh * g.sc ∧
    g.dw ≤ 20 ∧ g.dh ≤ 20 ∧
    g.dw * g.sh = g.dh * g.sw ∧
    g.dx = (28 - g.dw) / 2 ∧ g.dy = (28 - g.dh) / 2 ∧
    4 ≤ g.dx ∧ g.dx + g.dw ≤ 24 ∧ 4 ≤ g.dy ∧ g.dy + g.dh ≤ 24 := by
  have hge : g = Preprocessor.geomOf c (Preprocessor.scanBox c) := by
    by_cases hf : (Preprocessor.scanBox c).found = true
    · rw [Preprocessor.prepareGeom, if_pos hf] at hg
      exact (Option.some.inj hg).symm
    · rw [Preprocessor.prepareGeom, if_neg hf] at hg
      cases hg
  subst hge
  have hsc : (Preprocessor.geomOf c (Preprocessor.scanBox c)).sc =
      min (20 / (Preprocessor.geomOf c (Preprocessor.scanBox c)).sw)
        (20 / (Preprocessor.geomOf c (Preprocessor.scanBox c)).sh) := rfl
  have hdw : (Preprocessor.geomOf c (Preprocessor.scanBox c)).dw =
      (Preprocessor.geomOf c (Preprocessor.scanBox c)).sw *
        (Preprocessor.geomOf c (Preprocessor.scanBox c)).sc := rfl
  have hdh : (Preprocessor.geomOf c (Preprocessor.scanBox c)).dh =
      (Preprocessor.geomOf c (Preprocessor.scanBox c)).sh *
        (Preprocessor.geomOf c (Preprocessor.scanBox c)).sc := rfl
  have hdx : (Preprocessor.geomOf c (Preprocessor.scanBox c)).dx =
      (28 - (Preprocessor.geomOf c (Preprocessor.scanBox c)).dw) / 2 := rfl
  have hdy : (Preprocessor.geomOf c (Preprocessor.scanBox c)).dy =
      (28 - (Preprocessor.geomOf c (Preprocessor.scanBox c)).dh) / 2 := rfl
  set G := Preprocessor.geomOf c (Preprocessor.scanBox c)
  have hdwle : G.dw ≤ 20 := by
    rw [hdw]
    calc G.sw * G.sc ≤ G.sw * (20 / G.sw) := by
          refine mul_le_mul_of_nonneg_left ?_ hsw.le
          rw [hsc]; exact min_le_left _ _
      _ = 20 := by field_simp
  have hdhle : G.dh ≤ 20 := by
    rw [hdh]
    calc G.sh * G.sc ≤ G.sh * (20 / G.sh) := by
          refine mul_le_mul_of_nonneg_left ?_ hsh.le
          rw [hsc]; exact min_le_right _ _
      _ = 20 := by field_simp
  refine ⟨hsc, hdw, hdh, hdwle, hdhle, ?_, hdx, hdy, ?_, ?_, ?_, ?_⟩
  · rw [hdw, hdh]; ring
  · rw [hdx]; linarith
  · rw [hdx]; linarith
  · rw [hdy]; linarith
  · rw [hdy]; linarith

/-- Witness for C6 at a concrete canvas with a 2×2 ink block. -/
theorem prepare_fits_centered_witness :
    (Preprocessor.geomOf Preprocessor.inkCanvas
      (Preprocessor.scanBox Preprocessor.inkCanvas)).dw ≤ 20 ∧
    4 ≤ (Preprocessor.geomOf Preprocessor.inkCanvas
      (Preprocessor.scanBox Preprocessor.inkCanvas)).dx := by
  have h := prepare_fits_centered Preprocessor.inkCanvas
    (Preprocessor.geomOf Preprocessor.inkCanvas
      (Preprocessor.scanBox Preprocessor.inkCanvas))
    (by decide) (by decide) (by decide)
  exact ⟨h.2.2.2.1, h.2.2.2.2.2.2.2.2.1⟩

/-! Summarizer lemmas. -/

lemma summarize_length (t : MnistModel.Tensor) : (summarize t).length = 16 := by
  simp [summarize, App.pad16]

lemma summarize_getD (t : MnistModel.Tensor) {f : Nat} (hf : f < 16) :
    (summarize t).getD f 0 = (MnistModel.compactActivation t).getD f 0 := by
  unfold summarize App.pad16
  rw [getD_map_range _ _ hf]

lemma summaryOf_4d (t : MnistModel.Tensor) {b H W F : Nat}
    (ht : t.shape = [b, H, W, F]) :
    MnistModel.summaryOf t = (List.range (min F 16)).map
      (fun f => MnistModel.channelSum t H W F f / ((H : ℚ) * (W : ℚ))) := by
  simp [MnistModel.summaryOf, ht]

lemma summaryOf_flat (t : MnistModel.Tensor) (ht : t.shape.length ≠ 4) :
    MnistModel.summaryOf t = t.data.take 16 := by
  rw [MnistModel.summaryOf, if_neg ht]

lemma channelSum_eq (t : MnistModel.Tensor) (H W F f : Nat) :
    MnistModel.channelSum t H W F f =
      ∑ h ∈ Finset.range H, ∑ w ∈ Finset.range W,
        t.data.getD (h * W * F + w * F + f) 0 := by
  unfold MnistModel.channelSum
  have hin : (fun (sum : ℚ) (h : Nat) =>
      (List.range W).foldl
        (fun sum w => sum + t.data.getD (h * W * F + w * F + f) 0) sum)
      = fun (sum : ℚ) (h : Nat) =>
        sum + ∑ w ∈ Finset.range W, t.data.getD (h * W * F + w * F + f) 0 :=
    funext fun a => funext fun h => foldl_add_eq _ W a
  rw [hin, foldl_add_eq, zero_add]

lemma getD_zero_of_all_zero {l : List ℚ} (h : ∀ x ∈ l, x = 0) (k : Nat) :
    l.getD k 0 = 0 := by
  by_cases hk : k < l.length
  · rw [getD_eq_getElem _ _ hk]
    exact h _ (List.getElem_mem hk)
  · rw [List.getD_eq_default _ _ (le_of_not_lt hk)]

lemma summary_all_zero {t : MnistModel.Tensor} (h : ∀ x ∈ t.data, x = 0) :
    ∀ w ∈ MnistModel.summaryOf t, w = 0 := by
  intro w hw
  by_cases hs : t.shape.length = 4
  · simp only [MnistModel.summaryOf, hs, if_true] at hw
    obtain ⟨f, _, rfl⟩ := List.mem_map.mp hw
    have hcs : MnistModel.channelSum t (t.shape.getD 1 0) (t.shape.getD 2 0)
        (t.shape.getD 3 0) f = 0 := by
      rw [channelSum_eq]
      exact Finset.sum_eq_zero fun i _ =>
        Finset.sum_eq_zero fun j _ => getD_zero_of_all_zero h _
    rw [hcs, zero_div]
  · rw [MnistModel.summaryOf, if_neg hs] at hw
    exact h w (List.mem_of_mem_take hw)

/-- Claim C3: for every raw layer tensor, the summarization wired in the app
(`pad16 ∘ _compactActivation`) returns exactly 16 entries.  For a rank-4
tensor it returns the (rescaled) spatial mean of each of the first
`min(F,16)` feature channels and pads with 0 beyond them; for a flat vector
it returns the (rescaled) first `min(length,16)` entries and pads with 0
beyond them. -/
theorem summarize_returns_sixteen :
    (∀ (t : MnistModel.Tensor) (b H W F : Nat), t.shape = [b, H, W, F] →
      (summarize t).length = 16 ∧
      (∀ f, f < min F 16 →
        (summarize t).getD f 0 =
          MnistModel.channelMeanSpec t H W F f /
            MnistModel.maxFloor (MnistModel.summaryOf t)) ∧
      (∀ f, min F 16 ≤ f → f < 16 → (summarize t).getD f 0 = 0)) ∧
    (∀ t : MnistModel.Tensor, t.shape.length ≠ 4 →
      (summarize t).length = 16 ∧
      (∀ i, i < min t.data.length 16 →
        (summarize t).getD i 0 =
          t.data.getD i 0 / MnistModel.maxFloor (MnistModel.summaryOf t)) ∧
      (∀ i, min t.data.length 16 ≤ i → i < 16 → (summarize t).getD i 0 = 0)) := by
  constructor
  · intro t b H W F ht
    have hlen : (MnistModel.summaryOf t).length = min F 16 := by
      rw [summaryOf_4d t ht]; simp
    refine ⟨summarize_length t, ?_, ?_⟩
    · intro f hf
      have hf16 : f < 16 := lt_of_lt_of_le hf (min_le_right F 16)
      rw [summarize_getD t hf16]
      unfold MnistModel.compactActivation
      rw [getD_map_div _ _ (by rw [hlen]; exact hf)]
      congr 1
      rw [summaryOf_4d t ht, getD_map_range _ _ hf,
        MnistModel.channelMeanSpec, channelSum_eq]
    · intro f hminf hf16
      rw [summarize_getD t hf16]
      unfold MnistModel.compactActivation
      rw [List.getD_eq_default]
      rw [List.length_map, hlen]
      exact hminf
  · intro t ht
    have hsum : MnistModel.summaryOf t = t.data.take 16 := summaryOf_flat t ht
    have hlen : (MnistModel.summaryOf t).length = min t.data.length 16 := by
      rw [hsum, List.length_take, Nat.min_comm]
    refine ⟨summarize_length t, ?_, ?_⟩
    · intro i hi
      have hi16 : i < 16 := lt_of_lt_of_le hi (min_le_right _ _)
      rw [summarize_getD t hi16]
      unfold MnistModel.compactActivation
      rw [getD_map_div _ _ (by rw [hlen]; exact hi)]
      congr 1
      rw [hsum, List.getD_eq_getElem?_getD, List.getD_eq_getElem?_getD,
        List.getElem?_take, if_pos hi16]
    · intro i hmin hi16
      rw [summarize_getD t hi16]
      unfold MnistModel.compactActivation
      rw [List.getD_eq_default]
      rw [List.length_map, hlen]
      exact hmin

/-- Witness for C3: a concrete rank-4 tensor and a concrete flat vector. -/
theorem summarize_returns_sixteen_witness :
    (summarize MnistModel.t4ex).getD 0 0 =
      MnistModel.channelMeanSpec MnistModel.t4ex 1 1 2 0 /
        MnistModel.maxFloor (MnistModel.summaryOf MnistModel.t4ex) ∧
    (summarize MnistModel.tFlatEx).getD 9 0 = 0 := by
  refine ⟨(summarize_returns_sixteen.1 MnistModel.t4ex 1 1 1 2 rfl).2.1 0 (by decide),
    (summarize_returns_sixteen.2 MnistModel.tFlatEx (by decide)).2.2 9
      (by decide) (by decide)⟩

/-- Counterexample to C7 as stated: in `tinyDominant` channel 0 is strictly
dominant, yet because its value 1/20000 lies below the rescaling floor
0.0001 no entry of the rescaled summary equals 1.0. -/
theorem dominant_below_floor_not_one :
    (∀ i, i < (MnistModel.summaryOf MnistModel.tinyDominant).length → i ≠ 0 →
      (MnistModel.summaryOf MnistModel.tinyDominant).getD i 0 <
        (MnistModel.summaryOf MnistModel.tinyDominant).getD 0 0) ∧
    (∀ v ∈ MnistModel.compactActivation MnistModel.tinyDominant, v ≠ 1) := by
  decide

/-- Claim C7 (amended): `_compactActivation` rescales by
`max(summary maximum, 0.0001)`.  A tensor whose data is all zero yields an
all-zero vector (no division-by-zero failure), and a tensor with one
strictly dominant summary entry *of at least the floor constant 0.0001*
yields exactly one entry equal to 1.0, with every other entry below 1.0 and
all entries at most 1.0. -/
theorem summary_rescale :
    (∀ t : MnistModel.Tensor, (∀ x ∈ t.data, x = 0) →
      ∀ v ∈ MnistModel.compactActivation t, v = 0) ∧
    (∀ (t : MnistModel.Tensor) (j : Nat) (m : ℚ),
      j < (MnistModel.summaryOf t).length →
      (MnistModel.summaryOf t).getD j 0 = m →
      (1 : ℚ)/10000 ≤ m →
      (∀ i, i < (MnistModel.summaryOf t).length → i ≠ j →
        (MnistModel.summaryOf t).getD i 0 < m) →
      (MnistModel.compactActivation t).getD j 0 = 1 ∧
      (∀ i, i < (MnistModel.compactActivation t).length → i ≠ j →
        (MnistModel.compactActivation t).getD i 0 < 1) ∧
      (∀ v ∈ MnistModel.compactActivation t, v ≤ 1)) := by
  constructor
  · intro t hz v hv
    obtain ⟨w, hw, rfl⟩ := List.mem_map.mp hv
    rw [summary_all_zero hz w hw, zero_div]
  · intro t j m hj hm hfloor hdom
    have hmem : m ∈ MnistModel.summaryOf t := by
      rw [← hm, getD_eq_getElem _ _ hj]
      exact List.getElem_mem hj
    have hub : ∀ x ∈ MnistModel.summaryOf t, x ≤ m := by
      intro x hx
      obtain ⟨i, hi, rfl⟩ := List.mem_iff_getElem.mp hx
      by_cases hij : i = j
      · subst hij
        rw [← getD_eq_getElem _ 0 hi, hm]
      · rw [← getD_eq_getElem _ 0 hi]
        exact (hdom i hi hij).le
    have hM : MnistModel.maxFloor (MnistModel.summaryOf t) = m :=
      maxFloor_eq hmem hub hfloor
    have hmpos : (0 : ℚ) < m := lt_of_lt_of_le (by norm_num) hfloor
    refine ⟨?_, ?_, ?_⟩
    · unfold MnistModel.compactActivation
      rw [hM, getD_map_div _ _ hj, hm, div_self (ne_of_gt hmpos)]
    · intro i hi hij
      have hi' : i < (MnistModel.summaryOf t).length := by
        simpa [MnistModel.compactActivation] using hi
      unfold MnistModel.compactActivation
      rw [hM, getD_map_div _ _ hi']
      exact (div_lt_one hmpos).mpr (hdom i hi' hij)
    · intro v hv
      unfold MnistModel.compactActivation at hv
      rw [hM] at hv
      obtain ⟨w, hw, rfl⟩ := List.mem_map.mp hv
      exact (div_le_one hmpos).mpr (hub w hw)

/-- Witness for C7 (amended): the all-zero rank-4 tensor and a flat tensor
whose dominant entry 1/2 clears the floor. -/
theorem summary_rescale_witness :
    (∀ v ∈ MnistModel.compactActivation MnistModel.zeroTensor4, v = 0) ∧
    (MnistModel.compactActivation MnistModel.bigDominant).getD 0 0 = 1 := by
  refine ⟨summary_rescale.1 MnistModel.zeroTensor4 (by decide), ?_⟩
  exact (summary_rescale.2 MnistModel.bigDominant 0 (1/2) (by decide) (by decide)
    (by decide) (by decide)).1

/-- Claim C1 (failing case): `animate()` cancels only the remembered
`requestAnimationFrame` handle, never the pending inter-layer `setTimeout`.
In `traceOverlap` the first run (completion id 100) finishes layer 0 at
t = 280 and parks in its 70ms pause; the second `animate()` at t = 300
starts run 1; when the first run's timeout fires at t = 350 both runs have
frame callbacks pending at once, and in the continuation `traceDone` the
superseded first run's completion callback fires. -/
theorem animate_rapid_succession_races :
    0 ∈ NetworkRenderer.inFlightRuns
      (NetworkRenderer.runEvs NetworkRenderer.traceOverlap NetworkRenderer.rsStart) ∧
    1 ∈ NetworkRenderer.inFlightRuns
      (NetworkRenderer.runEvs NetworkRenderer.traceOverlap NetworkRenderer.rsStart) ∧
    100 ∈ (NetworkRenderer.runEvs NetworkRenderer.traceDone
      NetworkRenderer.rsStart).doneFired := by
  decide

/-- Claim C4 (failing case): `reset()` does zero every activation, target
and preview value and repaints exactly once (first two conjuncts, comparing
against the state just before the `reset` event), but it does not cancel the
in-flight run's pending inter-layer `setTimeout`: after the timeout and its
frame callback fire, the old run drives the first `_h2Nodes` node's
activation back to 1. -/
theorem reset_zeroes_but_stale_run_survives :
    NetworkRenderer.allZero
      (NetworkRenderer.runEvs NetworkRenderer.traceReset NetworkRenderer.rsStart) = true ∧
    (NetworkRenderer.runEvs NetworkRenderer.traceReset NetworkRenderer.rsStart).drawCount =
      (NetworkRenderer.runEvs (NetworkRenderer.traceReset.take 2)
        NetworkRenderer.rsStart).drawCount + 1 ∧
    ((NetworkRenderer.runEvs NetworkRenderer.traceResetAfter
      NetworkRenderer.rsStart).h2Nodes.getD 0 NetworkRenderer.dNode).act = 1 := by
  decide

/-- Invariant of the training state machine: the `_training` flag tracks
exactly whether one admitted run is in flight. -/
lemma runTrain_inv : ∀ (evs : List MnistModel.TrainEv) (s : MnistModel.TrainState),
    s.inFlight = (if s.training then 1 else 0) →
    (evs.foldl MnistModel.applyTrainEv s).inFlight =
      (if (evs.foldl MnistModel.applyTrainEv s).training then 1 else 0)
  | [], _, h => h
  | e :: evs, s, h => by
      rw [List.foldl_cons]
      refine runTrain_inv evs _ ?_
      cases e
      case start =>
        by_cases ht : s.training
        · simpa [MnistModel.applyTrainEv, MnistModel.trainStart, ht] using h
        · rw [if_neg ht] at h
          simp [MnistModel.applyTrainEv, MnistModel.trainStart, ht, h]
      case finish =>
        by_cases hf : s.inFlight = 0
        · simpa [MnistModel.applyTrainEv, MnistModel.trainDone, hf] using h
        · by_cases ht : s.training
          · rw [if_pos ht] at h
            simp [MnistModel.applyTrainEv, MnistModel.trainDone, hf, h]
          · rw [if_neg ht] at h
            exact absurd h hf
      case fail =>
        by_cases hf : s.inFlight = 0
        · simpa [MnistModel.applyTrainEv, MnistModel.trainFail, hf] using h
        · by_cases ht : s.training
          · rw [if_pos ht] at h
            simp [MnistModel.applyTrainEv, MnistModel.trainFail, hf, h]
          · rw [if_neg ht] at h
            exact absurd h hf

/-- Claim C10: calling `train` while a run is in progress returns without
touching any state (no data load, no model build, no flag change); starting
never clears the in-progress flag (only a completing run does, via
`trainDone`/`trainFail`); and along every interleaving of events at most one
training run is ever in flight. -/
theorem train_reentrancy_guard :
    (∀ s : MnistModel.TrainState, s.training = true → MnistModel.trainStart s = s) ∧
    (∀ s : MnistModel.TrainState, (MnistModel.trainStart s).training = true) ∧
    (∀ evs : List MnistModel.TrainEv, (MnistModel.runTrain evs).inFlight ≤ 1) := by
  refine ⟨?_, ?_, ?_⟩
  · intro s hs
    rw [MnistModel.trainStart, if_pos hs]
  · intro s
    unfold MnistModel.trainStart
    by_cases hs : s.training
    · rw [if_pos hs]; exact hs
    · rw [if_neg hs]
  · intro evs
    have h := runTrain_inv evs MnistModel.initTS rfl
    unfold MnistModel.runTrain
    rw [h]
    split <;> norm_num

/-- Witness for C10: a second `train()` call on a busy state is the
identity, and two immediate `train()` calls leave at most one run in
flight. -/
theorem train_reentrancy_guard_witness :
    MnistModel.trainStart ⟨true, false, 1, 1, 1⟩ = ⟨true, false, 1, 1, 1⟩ ∧
    (MnistModel.runTrain
      [MnistModel.TrainEv.start, MnistModel.TrainEv.start]).inFlight ≤ 1 :=
  ⟨train_reentrancy_guard.1 ⟨true, false, 1, 1, 1⟩ rfl,
   train_reentrancy_guard.2.2 [MnistModel.TrainEv.start, MnistModel.TrainEv.start]⟩

/-! Lemmas about the target assignment and pixel handling of `animate`. -/

lemma setTargetsAux_length (ts : List ℚ) :
    ∀ (i : Nat) (nodes : List NetworkRenderer.Node),
      (NetworkRenderer.setTargetsAux ts i nodes).length = nodes.length
  | _, [] => rfl
  | i, _ :: ns => by
      simp [NetworkRenderer.setTargetsAux, setTargetsAux_length ts (i + 1) ns]

lemma setTargetsAux_getD (ts : List ℚ) :
    ∀ (nodes : List NetworkRenderer.Node) (i k : Nat), k < nodes.length →
      ((NetworkRenderer.setTargetsAux ts i nodes).getD k
        NetworkRenderer.dNode).target = min (ts.getD (i + k) 0) 1
  | [], _, k, h => by simp at h
  | n :: ns, i, 0, _ => by simp [NetworkRenderer.setTargetsAux]
  | n :: ns, i, k + 1, h => by
      rw [show i + (k + 1) = (i + 1) + k from by omega]
      rw [NetworkRenderer.setTargetsAux, List.getD_cons_succ]
      exact setTargetsAux_getD ts ns (i + 1) k (by simpa using h)

lemma cancelRaf_pixels (s : NetworkRenderer.RState) :
    (NetworkRenderer.cancelRaf s).pixels = s.pixels := by
  unfold NetworkRenderer.cancelRaf
  cases s.raf <;> rfl

lemma setLayer_pixels (s : NetworkRenderer.RState) (l : Nat)
    (ns : List NetworkRenderer.Node) :
    (NetworkRenderer.setLayer s l ns).pixels = s.pixels := by
  unfold NetworkRenderer.setLayer
  rcases l with _ | (_ | l) <;> rfl

lemma nextLayer_pixels (run : Nat) (now : ℚ) (s : NetworkRenderer.RState) :
    (NetworkRenderer.nextLayer run now s).pixels = s.pixels := by
  unfold NetworkRenderer.nextLayer
  rcases h : s.runs.get? run with _ | r
  · rfl
  · by_cases hli : 3 ≤ r.li
    · simp [h, hli]
    · simp [h, hli, NetworkRenderer.requestRaf, setLayer_pixels]

lemma animate_none_pixels (a b c : Option (List ℚ)) (onDone : Nat) (now : ℚ)
    (s : NetworkRenderer.RState) :
    (NetworkRenderer.animate none a b c onDone now s).pixels = s.pixels := by
  unfold NetworkRenderer.animate
  rw [nextLayer_pixels]
  exact cancelRaf_pixels s

/-- Counterexample to C8 as stated: after a run whose preview set every cell
to 1/2, a second `animate` call with the input-preview array wholly absent
leaves the previous preview value 1/2 in place instead of behaving as all
zeros. -/
theorem absent_preview_keeps_previous :
    ((NetworkRenderer.animate none none none none 1 10
        NetworkRenderer.rsHalfPreview).pixels.getD 0 NetworkRenderer.dPix).val
      = 1/2 ∧
    ((NetworkRenderer.animate none none none none 1 10
        NetworkRenderer.rsHalfPreview).pixels.getD 0 NetworkRenderer.dPix).val
      ≠ 0 := by
  decide

/-- Claim C8 (amended): when a layer starts, each node's target is the given
entry clamped to at most 1.0; a target vector shorter than the node count
supplies 0 for the missing indices; entries beyond the node count are
ignored (the node list keeps its length); a wholly absent layer-target array
(defaulted to `[]`) behaves as all zeros; and an `animate` call with the
input-preview array absent leaves the preview pixels unchanged rather than
zeroing them.  All cases are total — no input raises an error. -/
theorem animate_target_defaulting :
    (∀ (ts : List ℚ) (nodes : List NetworkRenderer.Node) (k : Nat),
      k < nodes.length →
      ((NetworkRenderer.setTargets ts nodes).getD k
        NetworkRenderer.dNode).target = min (ts.getD k 0) 1) ∧
    (∀ (ts : List ℚ) (nodes : List NetworkRenderer.Node),
      (NetworkRenderer.setTargets ts nodes).length = nodes.length) ∧
    (∀ (ts : List ℚ) (nodes : List NetworkRenderer.Node) (k : Nat),
      ts.length ≤ k → k < nodes.length →
      ((NetworkRenderer.setTargets ts nodes).getD k
        NetworkRenderer.dNode).target = 0) ∧
    (∀ (nodes : List NetworkRenderer.Node) (k : Nat), k < nodes.length →
      ((NetworkRenderer.setTargets [] nodes).getD k
        NetworkRenderer.dNode).target = 0) ∧
    (∀ (a b c : Option (List ℚ)) (onDone : Nat) (now : ℚ)
      (s : NetworkRenderer.RState),
      (NetworkRenderer.animate none a b c onDone now s).pixels = s.pixels) := by
  have hget : ∀ (ts : List ℚ) (nodes : List NetworkRenderer.Node) (k : Nat),
      k < nodes.length →
      ((NetworkRenderer.setTargets ts nodes).getD k
        NetworkRenderer.dNode).target = min (ts.getD k 0) 1 := by
    intro ts nodes k h
    simpa using setTargetsAux_getD ts nodes 0 k h
  have hshort : ∀ (ts : List ℚ) (nodes : List NetworkRenderer.Node) (k : Nat),
      ts.length ≤ k → k < nodes.length →
      ((NetworkRenderer.setTargets ts nodes).getD k
        NetworkRenderer.dNode).target = 0 := by
    intro ts nodes k hts h
    rw [hget ts nodes k h, List.getD_eq_default _ _ hts]
    norm_num
  refine ⟨hget, ?_, hshort, ?_, ?_⟩
  · intro ts nodes
    exact setTargetsAux_length ts 0 nodes
  · intro nodes k h
    exact hshort [] nodes k (Nat.zero_le k) h
  · exact animate_none_pixels

/-- Witness for C8 (amended) on concrete inputs: clamping of an
over-unity entry, length preservation with an over-long vector, zero-fill
for a short vector and for the absent (defaulted-empty) vector, and
preview preservation for an absent input-pixel array. -/
theorem animate_target_defaulting_witness :
    ((NetworkRenderer.setTargets [2] (NetworkRenderer.makeNodes 2 0 100)).getD 0
      NetworkRenderer.dNode).target = min (([2] : List ℚ).getD 0 0) 1 ∧
    (NetworkRenderer.setTargets [1/2, 3, 4]
      (NetworkRenderer.makeNodes 2 0 100)).length =
      (NetworkRenderer.makeNodes 2 0 100).length ∧
    ((NetworkRenderer.setTargets [1/2] (NetworkRenderer.makeNodes 2 0 100)).getD 1
      NetworkRenderer.dNode).target = 0 ∧
    ((NetworkRenderer.setTargets [] (NetworkRenderer.makeNodes 2 0 100)).getD 0
      NetworkRenderer.dNode).target = 0 ∧
    (NetworkRenderer.animate none (some [1]) none none 7 0
      NetworkRenderer.rsStart).pixels = NetworkRenderer.rsStart.pixels :=
  ⟨animate_target_defaulting.1 [2] (NetworkRenderer.makeNodes 2 0 100) 0 (by decide),
   animate_target_defaulting.2.1 [1/2, 3, 4] (NetworkRenderer.makeNodes 2 0 100),
   animate_target_defaulting.2.2.1 [1/2] (NetworkRenderer.makeNodes 2 0 100) 1
     (by decide) (by decide),
   animate_target_defaulting.2.2.2.1 (NetworkRenderer.makeNodes 2 0 100) 0 (by decide),
   animate_target_defaulting.2.2.2.2 (some [1]) none none 7 0 NetworkRenderer.rsStart⟩

/-! Layout lemmas. -/

lemma makeNodes_getD (count : Nat) (lx Hq : ℚ) {i : Nat} (h : i < count) :
    (NetworkRenderer.makeNodes count lx Hq).getD i NetworkRenderer.dNode =
      { x := lx, y := (Hq / ((count : ℚ) + 1)) * ((i : ℚ) + 1),
        act := 0, target := 0, idx := i } := by
  unfold NetworkRenderer.makeNodes
  rw [getD_map_range _ _ h]

lemma layoutPixels_row0_x (W Hq : ℚ) {c : Nat}
    (hc : c < NetworkRenderer.PIX_COLS) :
    ((NetworkRenderer.layoutPixels W Hq).getD c NetworkRenderer.dPix).x =
      NetworkRenderer.colX W 0 -
        NetworkRenderer.cellW W Hq * (NetworkRenderer.PIX_COLS : ℚ) / 2 +
        (c : ℚ) * NetworkRenderer.cellW W Hq +
        NetworkRenderer.cellW W Hq / 2 := by
  have hsplit : List.range NetworkRenderer.PIX_ROWS =
      0 :: [1, 2, 3, 4, 5, 6, 7, 8, 9, 10, 11, 12, 13] := by decide
  simp only [NetworkRenderer.layoutPixels]
  rw [hsplit, List.flatMap_cons]
  rw [List.getD_append _ _ _ c (by simpa using hc)]
  rw [getD_map_range _ _ hc]

/-- Counterexample to C9 as stated: for a viewport of width 0 (height 500)
the fallback `clientWidth || 260` takes over, so the first hidden column
sits at x = 260·2/5 = 104, not at W·2/5 = 0 as the claim's universal
statement requires. -/
theorem layout_zero_width_fallback :
    ((NetworkRenderer.layout 0 500).h1Nodes.getD 0 NetworkRenderer.dNode).x = 104 ∧
    ((NetworkRenderer.layout 0 500).h1Nodes.getD 0 NetworkRenderer.dNode).x ≠
      0 * (2 / 5) := by
  decide

/-- Claim C9 (amended): for every viewport of nonzero width `W` and nonzero
height `H`, `_layout` centres the input-preview grid on the column at
`W·1/5` and places the three node columns at `W·2/5`, `W·3/5`, `W·4/5`;
within a column of `N` nodes, node `i` sits at `y = (H/(N+1))·(i+1)`, and
for every `N > 0` the margin above the first node and the margin below the
last node both equal `H/(N+1)`.  (A zero dimension falls back to the
defaults 260 and 500.) -/
theorem layout_column_node_positions (Wv Hv : ℚ) (hW : Wv ≠ 0) (hH : Hv ≠ 0) :
    ((((NetworkRenderer.layout Wv Hv).pixels.getD 0 NetworkRenderer.dPix).x +
      ((NetworkRenderer.layout Wv Hv).pixels.getD 13 NetworkRenderer.dPix).x) / 2
        = Wv * 1 / 5) ∧
    (∀ i, i < NetworkRenderer.H1 →
      ((NetworkRenderer.layout Wv Hv).h1Nodes.getD i NetworkRenderer.dNode).x
          = Wv * 2 / 5 ∧
      ((NetworkRenderer.layout Wv Hv).h1Nodes.getD i NetworkRenderer.dNode).y
          = (Hv / ((NetworkRenderer.H1 : ℚ) + 1)) * ((i : ℚ) + 1)) ∧
    (∀ i, i < NetworkRenderer.H2 →
      ((NetworkRenderer.layout Wv Hv).h2Nodes.getD i NetworkRenderer.dNode).x
          = Wv * 3 / 5 ∧
      ((NetworkRenderer.layout Wv Hv).h2Nodes.getD i NetworkRenderer.dNode).y
          = (Hv / ((NetworkRenderer.H2 : ℚ) + 1)) * ((i : ℚ) + 1)) ∧
    (∀ i, i < NetworkRenderer.OUT →
      ((NetworkRenderer.layout Wv Hv).outNodes.getD i NetworkRenderer.dNode).x
          = Wv * 4 / 5 ∧
      ((NetworkRenderer.layout Wv Hv).outNodes.getD i NetworkRenderer.dNode).y
          = (Hv / ((NetworkRenderer.OUT : ℚ) + 1)) * ((i : ℚ) + 1)) ∧
    (∀ (N : Nat) (lx : ℚ), 0 < N →
      ((NetworkRenderer.makeNodes N lx Hv).getD 0 NetworkRenderer.dNode).y
          = Hv / ((N : ℚ) + 1) ∧
      Hv - ((NetworkRenderer.makeNodes N lx Hv).getD (N - 1)
          NetworkRenderer.dNode).y = Hv / ((N : ℚ) + 1)) := by
  have heW : NetworkRenderer.effW Wv = Wv := if_neg hW
  have heH : NetworkRenderer.effH Hv = Hv := if_neg hH
  have hpix : (NetworkRenderer.layout Wv Hv).pixels =
      NetworkRenderer.layoutPixels Wv Hv := by
    simp only [NetworkRenderer.layout, heW, heH]
  have h1 : (NetworkRenderer.layout Wv Hv).h1Nodes =
      NetworkRenderer.makeNodes NetworkRenderer.H1
        (NetworkRenderer.colX Wv 1) Hv := by
    simp only [NetworkRenderer.layout, heW, heH]
  have h2 : (NetworkRenderer.layout Wv Hv).h2Nodes =
      NetworkRenderer.makeNodes NetworkRenderer.H2
        (NetworkRenderer.colX Wv 2) Hv := by
    simp only [NetworkRenderer.layout, heW, heH]
  have h3 : (NetworkRenderer.layout Wv Hv).outNodes =
      NetworkRenderer.makeNodes NetworkRenderer.OUT
        (NetworkRenderer.colX Wv 3) Hv := by
    simp only [NetworkRenderer.layout, heW, heH]
  refine ⟨?_, ?_, ?_, ?_, ?_⟩
  · rw [hpix, layoutPixels_row0_x Wv Hv (by decide),
      layoutPixels_row0_x Wv Hv (by decide)]
    unfold NetworkRenderer.colX
    simp only [NetworkRenderer.PIX_COLS]
    push_cast
    ring
  · intro i hi
    rw [h1, makeNodes_getD _ _ _ hi]
    constructor
    · unfold NetworkRenderer.colX; norm_num
    · rfl
  · intro i hi
    rw [h2, makeNodes_getD _ _ _ hi]
    constructor
    · unfold NetworkRenderer.colX; norm_num
    · rfl
  · intro i hi
    rw [h3, makeNodes_getD _ _ _ hi]
    constructor
    · unfold NetworkRenderer.colX; norm_num
    · rfl
  · intro N lx hN
    have hne : ((N : ℚ) + 1) ≠ 0 := by positivity
    constructor
    · rw [makeNodes_getD _ _ _ hN]
      norm_num
    · rw [makeNodes_getD _ _ _ (by omega : N - 1 < N)]
      have hcast : ((N - 1 : Nat) : ℚ) = (N : ℚ) - 1 := by
        have : (1 : Nat) ≤ N := hN
        push_cast [this]
        ring
      rw [hcast]
      field_simp
      ring

/-- Witness for C9 (amended) at the concrete viewport 500×340. -/
theorem layout_column_node_positions_witness :
    ((NetworkRenderer.layout 500 340).h1Nodes.getD 0 NetworkRenderer.dNode).x
      = 500 * 2 / 5 ∧
    ((NetworkRenderer.layout 500 340).outNodes.getD 9 NetworkRenderer.dNode).y
      = (340 / ((NetworkRenderer.OUT : ℚ) + 1)) * ((9 : ℚ) + 1) := by
  have h := layout_column_node_positions 500 340 (by norm_num) (by norm_num)
  exact ⟨(h.2.1 0 (by decide)).1, ((h.2.2.2.1 9 (by decide)).2).trans (by norm_num)⟩
